import Mathlib

/-!
Shallow embedding of src/brainMRI.py (ashripal/medAR).

The pipeline builds a mapping from region name to a surface entry
(vertices, faces, color, opacity) and feeds it to two exporters.
The mapping in the source is a Python defaultdict with list default
(line 21), so a lookup of an absent key yields an empty list and
inserts that empty list under the key; we model the mapping as an
insertion-ordered association list whose values are either a 4-tuple
entry or the defaulted empty list.

The numerical library calls (scipy.ndimage.zoom, skimage
marching_cubes, Otsu thresholding, nibabel loading) are modelled as
function parameters: the claims settled here do not depend on their
numeric output, only on how the script routes their results.
Volumes are flattened voxel lists; the elementwise operations the
script performs on them (equality with a label, thresholding,
summation) are shape-agnostic.
-/

namespace MedAR

/-- Python exceptions relevant to this script: KeyError from a plain
dict lookup, ValueError from tuple unpacking. -/
inductive PyError where
  | keyError (k : String)
  | valueError
  deriving DecidableEq

/-- One surface entry: the 4-tuple (verts, faces, color, opacity)
stored under a region name (brainMRI.py line 39 and line 141). -/
structure Entry where
  verts : List (ℚ × ℚ × ℚ)
  faces : List (ℕ × ℕ × ℕ)
  color : String
  opacity : ℚ
  deriving DecidableEq

/-- A value held by the defaultdict: either a stored 4-tuple, or the
empty list produced by the list default factory on a missed lookup. -/
inductive EntryVal where
  | tuple (e : Entry)
  | emptyList
  deriving DecidableEq

/-- The tumor_data mapping: insertion-ordered association list,
modelling the Python defaultdict of line 21. -/
abbrev Mapping := List (String × EntryVal)

/-- Plain dict lookup on the association list (first binding wins;
keys are unique in any mapping the script builds). -/
def dictFind : Mapping → String → Option EntryVal
  | [], _ => none
  | (a, v) :: rest, k => if a = k then some v else dictFind rest k

/-- defaultdict(list) subscript read: a hit returns the stored value
and leaves the mapping alone; a miss inserts the empty list under
the key (at the end, per dict insertion order) and returns it. -/
def ddGet (m : Mapping) (k : String) : EntryVal × Mapping :=
  match dictFind m k with
  | some v => (v, m)
  | none => (EntryVal.emptyList, m ++ [(k, EntryVal.emptyList)])

/-- dict subscript assignment: rebind an existing key in place, or
append a new binding at the end. -/
def dictSet : Mapping → String → EntryVal → Mapping
  | [], k, v => [(k, v)]
  | (a, b) :: rest, k, v =>
    if a = k then (k, v) :: rest else (a, b) :: dictSet rest k v

/-- Python 4-tuple unpacking `vertices, faces, color, opacity = val`:
succeeds on a stored 4-tuple, raises ValueError on the defaulted
empty list. -/
def unpack4 : EntryVal → Except PyError Entry
  | EntryVal.tuple e => Except.ok e
  | EntryVal.emptyList => Except.error PyError.valueError

/-- Total projection used only in theorem statements, under a
well-formedness hypothesis that rules out the empty-list case. -/
def entryOfD : EntryVal → Entry
  | EntryVal.tuple e => e
  | EntryVal.emptyList => ⟨[], [], "", 0⟩

/-- A mapping is well formed when every value is a stored 4-tuple
(no binding was created by a defaulted lookup). -/
def wellFormed (m : Mapping) : Prop :=
  ∀ p ∈ m, ∃ e, p.2 = EntryVal.tuple e

/-- COLOR_MAP from brainMRI.py lines 9-14. -/
def COLOR_MAP : List (String × (ℚ × ℚ × ℚ)) :=
  [ ("pink", (9/10, 7/10, 7/10)),
    ("red", (1, 0, 0)),
    ("yellow", (9/10, 9/10, 1/2)),
    ("lightblue", (7/10, 7/10, 9/10)) ]

/-- Lookup in COLOR_MAP (a plain dict: a miss is a KeyError). -/
def colorLookup : List (String × (ℚ × ℚ × ℚ)) → String → Option (ℚ × ℚ × ℚ)
  | [], _ => none
  | (a, v) :: rest, k => if a = k then some v else colorLookup rest k

/-- DOWNSAMPLE_FACTOR from brainMRI.py line 15. -/
def DOWNSAMPLE_FACTOR : ℚ := 6/10

/-- One plotly go.Mesh3d layer: the column slices of the vertex and
face arrays plus color, opacity and legend name
(brainMRI.py lines 48-58 and 64-74). -/
structure Layer where
  x : List ℚ
  y : List ℚ
  z : List ℚ
  i : List ℕ
  j : List ℕ
  k : List ℕ
  color : String
  opacity : ℚ
  name : String
  deriving DecidableEq

/-- Build the go.Mesh3d layer for one entry: x,y,z are the vertex
columns, i,j,k the face columns. -/
def mesh3dOf (nm : String) (e : Entry) : Layer :=
  ⟨ e.verts.map (fun p => p.1),
    e.verts.map (fun p => p.2.1),
    e.verts.map (fun p => p.2.2),
    e.faces.map (fun t => t.1),
    e.faces.map (fun t => t.2.1),
    e.faces.map (fun t => t.2.2),
    e.color, e.opacity, nm ⟩

/-- The `for name in mesh_data.keys()` loop of create_3d_html
(lines 60-74): skip "brain", read each remaining key through the
defaultdict subscript, unpack the 4-tuple, append a layer.  The
mapping is threaded because a defaultdict subscript can insert. -/
def htmlLoop : Mapping → List String → Except PyError (List Layer) × Mapping
  | m, [] => (Except.ok [], m)
  | m, nm :: rest =>
    if nm = "brain" then htmlLoop m rest
    else
      let r := ddGet m nm
      match unpack4 r.1 with
      | Except.error e => (Except.error e, r.2)
      | Except.ok ent =>
        let r2 := htmlLoop r.2 rest
        match r2.1 with
        | Except.ok layers => (Except.ok (mesh3dOf nm ent :: layers), r2.2)
        | Except.error e => (Except.error e, r2.2)

/-- create_3d_html (lines 43-79): read mesh_data for "brain" first and
emit its layer, then one layer per remaining key in mapping order.
The ok payload is the layer list written to brain_plot.html; an error
means the exception propagated and no document was written.  The
returned mapping is the argument's state after the call. -/
def create_3d_html (mesh_data : Mapping) : Except PyError (List Layer) × Mapping :=
  let r := ddGet mesh_data "brain"
  match unpack4 r.1 with
  | Except.error e => (Except.error e, r.2)
  | Except.ok be =>
    let r2 := htmlLoop r.2 (r.2.map Prod.fst)
    match r2.1 with
    | Except.ok layers => (Except.ok (mesh3dOf "brain" be :: layers), r2.2)
    | Except.error e => (Except.error e, r2.2)

/-- Row-major flattening of the faces array,
`faces.flatten().tolist()` (line 97). -/
def flattenFaces : List (ℕ × ℕ × ℕ) → List ℕ
  | [] => []
  | t :: rest => t.1 :: t.2.1 :: t.2.2 :: flattenFaces rest

/-- The USD mesh prim plus its bound material, as written for one
entry by create_usdc_with_materials (lines 85-119). -/
structure MeshSpec where
  name : String
  points : List (ℚ × ℚ × ℚ)
  faceVertexIndices : List ℕ
  faceVertexCounts : List ℕ
  normals : List (ℚ × ℚ × ℚ)
  diffuseColor : ℚ × ℚ × ℚ
  deriving DecidableEq

/-- Build the prim data for one entry: points are the vertices, the
index list is the flattened faces, the count list is [3] * len(faces),
normals are the placeholder (0,0,1) per vertex, and the shader diffuse
color is the COLOR_MAP value. -/
def meshSpecOf (nm : String) (e : Entry) (c : ℚ × ℚ × ℚ) : MeshSpec :=
  ⟨ nm, e.verts, flattenFaces e.faces,
    List.replicate e.faces.length 3,
    List.replicate e.verts.length (0, 0, 1), c ⟩

/-- The entry loop of create_usdc_with_materials (lines 85-119):
for each item, unpack the 4-tuple (in the for statement), look the
color name up in COLOR_MAP (a KeyError on a miss, line 86), and emit
the prim.  An error aborts the run before the stage is saved. -/
def usdcLoop : Mapping → Except PyError (List MeshSpec)
  | [] => Except.ok []
  | (nm, v) :: rest =>
    match unpack4 v with
    | Except.error e => Except.error e
    | Except.ok ent =>
      match colorLookup COLOR_MAP ent.color with
      | none => Except.error (PyError.keyError ent.color)
      | some c =>
        match usdcLoop rest with
        | Except.error e => Except.error e
        | Except.ok specs => Except.ok (meshSpecOf nm ent c :: specs)

/-- create_usdc_with_materials (lines 81-124): the ok payload is the
list of prims persisted to the file at filename; an error means the
exception propagated and the stage was never saved.  The function
only iterates the mapping's items, so the mapping is returned
unchanged. -/
def create_usdc_with_materials (filename : String) (mesh_data_dict : Mapping) :
    Except PyError (List MeshSpec) × Mapping :=
  (usdcLoop mesh_data_dict, mesh_data_dict)

/-- A surface as returned by the downsample-and-marching-cubes calls:
the (verts, faces) pair (the script discards the normals and values
also returned by measure.marching_cubes). -/
abbrev Surface := List (ℚ × ℚ × ℚ) × List (ℕ × ℕ × ℕ)

/-- tumor_labels from brainMRI.py lines 23-27, in dict insertion
order: label id, region name, color name, opacity. -/
def tumor_labels : List (ℕ × String × String × ℚ) :=
  [ (1, "Edema", "yellow", 3/10),
    (2, "Necrotic", "red", 8/10),
    (3, "Enhancing", "lightblue", 3/10) ]

/-- Binary mask `(seg_data == label).astype(np.uint8)` (line 31) on
the flattened voxel list. -/
def maskOf (seg_data : List ℚ) (label : ℕ) : List ℕ :=
  seg_data.map (fun v => if v = (label : ℚ) then 1 else 0)

/-- The voxel count np.sum(mask) of line 32. -/
def maskSum (mask : List ℕ) : ℕ := mask.sum

/-- The per-label loop of get_tumors (lines 30-39): build the mask,
silently skip the label when the mask sums to zero, otherwise run the
zoom + marching_cubes extraction (the `extract` parameter, lines
35-36, which can fail) and store the entry under the region name. -/
def tumorLoop (extract : List ℕ → Except PyError Surface) (seg_data : List ℚ) :
    List (ℕ × String × String × ℚ) → Except PyError Mapping
  | [] => Except.ok []
  | (label, nm, color, op) :: rest =>
    let mask := maskOf seg_data label
    if maskSum mask = 0 then tumorLoop extract seg_data rest
    else
      match extract mask with
      | Except.error e => Except.error e
      | Except.ok vf =>
        match tumorLoop extract seg_data rest with
        | Except.error e => Except.error e
        | Except.ok m => Except.ok ((nm, EntryVal.tuple ⟨vf.1, vf.2, color, op⟩) :: m)

/-- get_tumors (lines 17-41).  The segmentation is loaded from the
module-global seg_path through the loader (`nib.load(seg_path)
.get_fdata()`, line 19); the tumor_path argument is never read in the
body.  nib_load_fdata and extract stand for the nibabel and
scipy/skimage library calls. -/
def get_tumors (seg_path : String) (nib_load_fdata : String → List ℚ)
    (extract : List ℕ → Except PyError Surface)
    (tumor_path : String) : Except PyError Mapping :=
  tumorLoop extract (nib_load_fdata seg_path) tumor_labels

/-- The brain mask computed in __main__ (lines 132-136): load the
4-channel MRI, take channel index 3, threshold it with Otsu's method
and keep the strictly-greater voxels. -/
def main_brain_mask (nib_load_mri : String → List (ℚ × ℚ × ℚ × ℚ))
    (threshold_otsu : List ℚ → ℚ) : List ℕ :=
  let mri_data := (nib_load_mri "Task01_BrainTumour/imagesTr/BRATS_001.nii.gz").map
    (fun v => v.2.2.2)
  let brain_threshold := threshold_otsu mri_data
  mri_data.map (fun v => if brain_threshold < v then 1 else 0)

/-- The __main__ block up to the mapping hand-off (lines 127-141):
run get_tumors (passing seg_path as the unused argument, line 129),
extract the whole-brain surface from the Otsu mask (the
extract_brain parameter stands for lines 137-139, whose downsampled
volume is additionally cast to uint8 before marching_cubes), and
store it under "brain" with color pink and opacity 0.2. -/
def main_tumor_data (seg_path : String) (nib_load_fdata : String → List ℚ)
    (extract : List ℕ → Except PyError Surface)
    (nib_load_mri : String → List (ℚ × ℚ × ℚ × ℚ))
    (threshold_otsu : List ℚ → ℚ)
    (extract_brain : List ℕ → Except PyError Surface) : Except PyError Mapping :=
  match get_tumors seg_path nib_load_fdata extract seg_path with
  | Except.error e => Except.error e
  | Except.ok tumor_data =>
    match extract_brain (main_brain_mask nib_load_mri threshold_otsu) with
    | Except.error e => Except.error e
    | Except.ok vf =>
      Except.ok (dictSet tumor_data "brain" (EntryVal.tuple ⟨vf.1, vf.2, "pink", 1/5⟩))

/-- The index-bounds invariant on a surface: every face index is a
valid index into the vertex list. -/
def validSurface (s : Surface) : Prop :=
  ∀ t ∈ s.2, t.1 < s.1.length ∧ t.2.1 < s.1.length ∧ t.2.2 < s.1.length

/-- The index-bounds invariant on an entry. -/
def validEntry (e : Entry) : Prop :=
  ∀ t ∈ e.faces, t.1 < e.verts.length ∧ t.2.1 < e.verts.length ∧ t.2.2 < e.verts.length

/-- The invariant lifted to a mapping value (vacuous on the
defaulted empty list). -/
def validEntryVal : EntryVal → Prop
  | EntryVal.tuple e => validEntry e
  | EntryVal.emptyList => True

/-- Every entry of the mapping satisfies the index-bounds
invariant. -/
def validMapping (m : Mapping) : Prop :=
  ∀ p ∈ m, validEntryVal p.2

instance (e : Entry) : Decidable (validEntry e) := by
  unfold validEntry; infer_instance

instance (v : EntryVal) : Decidable (validEntryVal v) := by
  cases v <;> (unfold validEntryVal; infer_instance)

instance (m : Mapping) : Decidable (validMapping m) := by
  unfold validMapping; infer_instance

instance decIsTupleVal (v : EntryVal) : Decidable (∃ e, v = EntryVal.tuple e) :=
  match v with
  | EntryVal.tuple e => isTrue ⟨e, rfl⟩
  | EntryVal.emptyList => isFalse (fun h => by
      rcases h with ⟨e, he⟩
      cases he)

instance (m : Mapping) : Decidable (wellFormed m) := by
  unfold wellFormed; infer_instance

/-! Sample entries used by concrete witnesses. -/

/-- A sample well-formed entry with one vertex and one face. -/
def sampleEntry : Entry := ⟨[(0, 0, 0)], [(0, 0, 0)], "yellow", 3/10⟩

/-- A second sample entry, sharing the color name of sampleEntry. -/
def sampleEntry2 : Entry := ⟨[(1, 0, 0), (0, 1, 0)], [(0, 1, 1)], "yellow", 8/10⟩

/-- A sample brain entry. -/
def sampleBrain : Entry := ⟨[(0, 0, 0), (1, 1, 1)], [(0, 1, 0)], "pink", 1/5⟩

/-- Claim C10: get_tumors never reads its tumor_path argument; with
the same global seg_path, loader and extraction behavior, any two
argument values produce the same mapping. -/
theorem get_tumors_ignores_tumor_path (seg_path : String)
    (nib_load_fdata : String → List ℚ)
    (extract : List ℕ → Except PyError Surface) (p1 p2 : String) :
    get_tumors seg_path nib_load_fdata extract p1 =
      get_tumors seg_path nib_load_fdata extract p2 := rfl

/-- Claim C1, counterexample: on the empty mapping (which has no
"brain" key), create_3d_html raises ValueError — the defaultdict
lookup returns the defaulted empty list, whose 4-tuple unpacking
fails — and inserts an empty "brain" binding; ValueError is not a
key-lookup error. -/
theorem create_3d_html_missing_brain_counterexample :
    create_3d_html [] =
      (Except.error PyError.valueError, [("brain", EntryVal.emptyList)]) ∧
    PyError.valueError ≠ PyError.keyError "brain" :=
  ⟨rfl, by decide⟩

/-- Claim C1, amended: for every mapping without a "brain" key,
create_3d_html fails before emitting any mesh layer, but with a
ValueError from unpacking the defaulted empty list (the mapping is a
defaultdict with list default), not a key-lookup error; the defaulted
lookup also appends an empty "brain" binding to the mapping. -/
theorem create_3d_html_missing_brain (m : Mapping)
    (h : dictFind m "brain" = none) :
    create_3d_html m =
      (Except.error PyError.valueError, m ++ [("brain", EntryVal.emptyList)]) := by
  unfold create_3d_html ddGet
  rw [h]
  rfl

/-- Witness for create_3d_html_missing_brain at a concrete one-entry
mapping. -/
theorem create_3d_html_missing_brain_witness :
    dictFind [("Edema", EntryVal.tuple sampleEntry)] "brain" = none ∧
    create_3d_html [("Edema", EntryVal.tuple sampleEntry)] =
      (Except.error PyError.valueError,
       [("Edema", EntryVal.tuple sampleEntry), ("brain", EntryVal.emptyList)]) :=
  ⟨by decide, create_3d_html_missing_brain _ (by decide)⟩

/-- unpack4 succeeds exactly on stored 4-tuples. -/
theorem unpack4_ok_tuple {v : EntryVal} {e : Entry}
    (h : unpack4 v = Except.ok e) : v = EntryVal.tuple e := by
  cases v with
  | tuple e' =>
    simp only [unpack4] at h
    cases h
    rfl
  | emptyList => cases h

/-- Flattening the face triples gives three indices per face. -/
theorem flattenFaces_length (l : List (ℕ × ℕ × ℕ)) :
    (flattenFaces l).length = 3 * l.length := by
  induction l with
  | nil => rfl
  | cons t rest ih =>
    simp only [flattenFaces, List.length_cons, ih]
    omega

/-- In a mapping with no duplicate keys, a key determines its
value. -/
theorem dict_val_unique {m : Mapping} {k : String} {v1 v2 : EntryVal}
    (hnd : (m.map Prod.fst).Nodup)
    (h1 : (k, v1) ∈ m) (h2 : (k, v2) ∈ m) : v1 = v2 := by
  induction m with
  | nil => cases h1
  | cons hd rest ih =>
    obtain ⟨a, v⟩ := hd
    rw [List.map_cons, List.nodup_cons] at hnd
    rcases List.mem_cons.mp h1 with he1 | h1'
    · rcases List.mem_cons.mp h2 with he2 | h2'
      · injection he1 with hk1 hv1
        injection he2 with hk2 hv2
        rw [hv1, hv2]
      · injection he1 with hk1 hv1
        exact absurd (List.mem_map_of_mem Prod.fst h2') (hk1 ▸ hnd.1)
    · rcases List.mem_cons.mp h2 with he2 | h2'
      · injection he2 with hk2 hv2
        exact absurd (List.mem_map_of_mem Prod.fst h1') (hk2 ▸ hnd.1)
      · exact ih hnd.2 h1' h2'

/-- A successful usdcLoop run emits, for each spec, exactly the prim
data of a stored entry under its name: points are its vertices,
indices its flattened faces, counts the constant-3 list, and the
diffuse color the COLOR_MAP value of its color name. -/
theorem usdcLoop_ok_entries (m : Mapping) (specs : List MeshSpec)
    (h : usdcLoop m = Except.ok specs) :
    ∀ s ∈ specs, ∃ e, (s.name, EntryVal.tuple e) ∈ m ∧
      colorLookup COLOR_MAP e.color = some s.diffuseColor ∧
      s.points = e.verts ∧
      s.faceVertexIndices = flattenFaces e.faces ∧
      s.faceVertexCounts = List.replicate e.faces.length 3 := by
  induction m generalizing specs with
  | nil =>
    simp only [usdcLoop] at h
    cases h
    intro s hs
    cases hs
  | cons hd rest ih =>
    obtain ⟨a, v⟩ := hd
    rw [usdcLoop] at h
    split at h
    · cases h
    · rename_i ent hent
      split at h
      · cases h
      · rename_i c hcl
        split at h
        · cases h
        · rename_i specs' hrest
          cases h
          intro s hs
          rcases List.mem_cons.mp hs with rfl | hs'
          · refine ⟨ent, ?_, ?_, rfl, rfl, rfl⟩
            · rw [unpack4_ok_tuple hent]
              exact List.mem_cons_self _ _
            · exact hcl
          · obtain ⟨e, hmem, hrest2⟩ := ih specs' hrest s hs'
            exact ⟨e, List.mem_cons_of_mem _ hmem, hrest2⟩

/-- A successful usdcLoop run means every stored value unpacked and
every color name resolved in COLOR_MAP. -/
theorem usdcLoop_ok_forward (m : Mapping) (specs : List MeshSpec)
    (h : usdcLoop m = Except.ok specs) :
    ∀ p ∈ m, ∃ e c, p.2 = EntryVal.tuple e ∧
      colorLookup COLOR_MAP e.color = some c := by
  induction m generalizing specs with
  | nil =>
    intro p hp
    cases hp
  | cons hd rest ih =>
    obtain ⟨a, v⟩ := hd
    rw [usdcLoop] at h
    split at h
    · cases h
    · rename_i ent hent
      split at h
      · cases h
      · rename_i c hcl
        split at h
        · cases h
        · rename_i specs' hrest
          intro p hp
          rcases List.mem_cons.mp hp with rfl | hp'
          · exact ⟨ent, c, unpack4_ok_tuple hent, hcl⟩
          · exact ih specs' hrest p hp'

/-- On a well-formed mapping, any usdcLoop failure is a KeyError at
the COLOR_MAP lookup of an unknown color name. -/
theorem usdcLoop_error_shape (m : Mapping) (err : PyError)
    (hwf : wellFormed m) (h : usdcLoop m = Except.error err) :
    ∃ c, err = PyError.keyError c ∧ colorLookup COLOR_MAP c = none := by
  induction m with
  | nil => cases h
  | cons hd rest ih =>
    obtain ⟨a, v⟩ := hd
    obtain ⟨ea, hea⟩ := hwf (a, v) (List.mem_cons_self _ _)
    simp only at hea
    subst hea
    rw [usdcLoop] at h
    split at h
    · rename_i e' he'
      cases he'
    · rename_i ent hent
      have hve : ea = ent := by
        have h2 := unpack4_ok_tuple hent
        injection h2
      subst hve
      split at h
      · rename_i hcl
        cases h
        exact ⟨ea.color, rfl, hcl⟩
      · rename_i c hcl
        split at h
        · rename_i e' hrest
          cases h
          exact ih (fun p hp => hwf p (List.mem_cons_of_mem _ hp)) hrest
        · cases h

/-- Claim C5: for a well-formed mapping holding an entry whose color
name is not in COLOR_MAP, the scene-graph exporter fails with a
KeyError for an unknown color name — it neither substitutes a
default nor skips the material, and no stage is saved. -/
theorem usdc_unknown_color_fatal (filename : String) (m : Mapping)
    (nm : String) (e : Entry)
    (hwf : wellFormed m) (hmem : (nm, EntryVal.tuple e) ∈ m)
    (hc : colorLookup COLOR_MAP e.color = none) :
    ∃ c, (create_usdc_with_materials filename m).1 =
        Except.error (PyError.keyError c) ∧
      colorLookup COLOR_MAP c = none := by
  rcases hrun : usdcLoop m with err | specs
  · obtain ⟨c, rfl, hcn⟩ := usdcLoop_error_shape m err hwf hrun
    exact ⟨c, by simpa [create_usdc_with_materials] using hrun, hcn⟩
  · obtain ⟨e', c, he', hcol⟩ := usdcLoop_ok_forward m specs hrun (nm, EntryVal.tuple e) hmem
    simp only at he'
    have : e' = e := by injection he'.symm
    rw [this] at hcol
    rw [hcol] at hc
    cases hc

/-- Witness for usdc_unknown_color_fatal: a one-entry mapping whose
color name "crimson" is not in COLOR_MAP. -/
theorem usdc_unknown_color_fatal_witness :
    wellFormed [("Necrotic", EntryVal.tuple ⟨[], [], "crimson", 8/10⟩)] ∧
    ∃ c, (create_usdc_with_materials "brain_with_tumor.usdc"
        [("Necrotic", EntryVal.tuple ⟨[], [], "crimson", 8/10⟩)]).1 =
        Except.error (PyError.keyError c) ∧
      colorLookup COLOR_MAP c = none :=
  ⟨by decide,
   usdc_unknown_color_fatal "brain_with_tumor.usdc" _ "Necrotic" _
     (by decide) (List.mem_cons_self _ _) (by decide)⟩

/-- Claim C6: every face-vertex-count value the scene-graph exporter
writes equals 3, the count list has one value per face row of the
corresponding stored entry, and the flattened index list has three
indices per face row. -/
theorem usdc_face_counts_all_three (filename : String) (m : Mapping)
    (specs : List MeshSpec)
    (h : (create_usdc_with_materials filename m).1 = Except.ok specs) :
    ∀ s ∈ specs, (∀ c ∈ s.faceVertexCounts, c = 3) ∧
      ∃ e, (s.name, EntryVal.tuple e) ∈ m ∧
        s.faceVertexCounts.length = e.faces.length ∧
        s.faceVertexIndices.length = 3 * e.faces.length := by
  intro s hs
  obtain ⟨e, hmem, _, _, hidx, hcnt⟩ :=
    usdcLoop_ok_entries m specs h s hs
  refine ⟨?_, e, hmem, ?_, ?_⟩
  · intro c hcmem
    rw [hcnt] at hcmem
    exact List.eq_of_mem_replicate hcmem
  · rw [hcnt, List.length_replicate]
  · rw [hidx, flattenFaces_length]

/-- Witness for usdc_face_counts_all_three at a concrete two-entry
mapping. -/
theorem usdc_face_counts_all_three_witness :
    (create_usdc_with_materials "brain_with_tumor.usdc"
      [("brain", EntryVal.tuple sampleBrain),
       ("Edema", EntryVal.tuple sampleEntry)]).1 =
      Except.ok [meshSpecOf "brain" sampleBrain (9/10, 7/10, 7/10),
                 meshSpecOf "Edema" sampleEntry (9/10, 9/10, 1/2)] ∧
    ∀ s ∈ [meshSpecOf "brain" sampleBrain (9/10, 7/10, 7/10),
           meshSpecOf "Edema" sampleEntry (9/10, 9/10, 1/2)],
      (∀ c ∈ s.faceVertexCounts, c = 3) ∧
      ∃ e, (s.name, EntryVal.tuple e) ∈
          [("brain", EntryVal.tuple sampleBrain),
           ("Edema", EntryVal.tuple sampleEntry)] ∧
        s.faceVertexCounts.length = e.faces.length ∧
        s.faceVertexIndices.length = 3 * e.faces.length :=
  ⟨rfl, usdc_face_counts_all_three "brain_with_tumor.usdc" _ _ rfl⟩

/-- Claim C8: each emitted diffuse color is the COLOR_MAP value of
the entry's color name, and (given unique keys) entries sharing a
color name get identical RGB triples. -/
theorem usdc_diffuse_color_from_table (filename : String) (m : Mapping)
    (specs : List MeshSpec) (hnd : (m.map Prod.fst).Nodup)
    (h : (create_usdc_with_materials filename m).1 = Except.ok specs) :
    (∀ s ∈ specs, ∃ e, (s.name, EntryVal.tuple e) ∈ m ∧
        colorLookup COLOR_MAP e.color = some s.diffuseColor) ∧
    (∀ s ∈ specs, ∀ t ∈ specs, ∀ e1 e2,
        (s.name, EntryVal.tuple e1) ∈ m → (t.name, EntryVal.tuple e2) ∈ m →
        e1.color = e2.color → s.diffuseColor = t.diffuseColor) := by
  constructor
  · intro s hs
    obtain ⟨e, hmem, hcol, _⟩ := usdcLoop_ok_entries m specs h s hs
    exact ⟨e, hmem, hcol⟩
  · intro s hs t ht e1 e2 h1 h2 hcc
    obtain ⟨es, hmems, hcols, _⟩ := usdcLoop_ok_entries m specs h s hs
    obtain ⟨et, hmemt, hcolt, _⟩ := usdcLoop_ok_entries m specs h t ht
    have hes : es = e1 := by
      have := dict_val_unique hnd hmems h1
      injection this
    have het : et = e2 := by
      have := dict_val_unique hnd hmemt h2
      injection this
    rw [hes] at hcols
    rw [het, ← hcc] at hcolt
    rw [hcols] at hcolt
    exact Option.some.inj hcolt

/-- Witness for usdc_diffuse_color_from_table: two entries sharing
the color name "yellow". -/
theorem usdc_diffuse_color_from_table_witness :
    ([("Edema", EntryVal.tuple sampleEntry),
      ("Necrotic", EntryVal.tuple sampleEntry2)].map Prod.fst).Nodup ∧
    (∀ s ∈ [meshSpecOf "Edema" sampleEntry (9/10, 9/10, 1/2),
            meshSpecOf "Necrotic" sampleEntry2 (9/10, 9/10, 1/2)],
      ∃ e, (s.name, EntryVal.tuple e) ∈
          [("Edema", EntryVal.tuple sampleEntry),
           ("Necrotic", EntryVal.tuple sampleEntry2)] ∧
        colorLookup COLOR_MAP e.color = some s.diffuseColor) ∧
    (∀ s ∈ [meshSpecOf "Edema" sampleEntry (9/10, 9/10, 1/2),
            meshSpecOf "Necrotic" sampleEntry2 (9/10, 9/10, 1/2)],
      ∀ t ∈ [meshSpecOf "Edema" sampleEntry (9/10, 9/10, 1/2),
             meshSpecOf "Necrotic" sampleEntry2 (9/10, 9/10, 1/2)],
      ∀ e1 e2,
        (s.name, EntryVal.tuple e1) ∈
          [("Edema", EntryVal.tuple sampleEntry),
           ("Necrotic", EntryVal.tuple sampleEntry2)] →
        (t.name, EntryVal.tuple e2) ∈
          [("Edema", EntryVal.tuple sampleEntry),
           ("Necrotic", EntryVal.tuple sampleEntry2)] →
        e1.color = e2.color → s.diffuseColor = t.diffuseColor) :=
  ⟨by decide,
   usdc_diffuse_color_from_table "brain_with_tumor.usdc" _ _
     (by decide) rfl⟩

/-- A key listed among the mapping's keys is found by lookup. -/
theorem dictFind_isSome_of_mem {m : Mapping} {k : String}
    (h : k ∈ m.map Prod.fst) : ∃ v, dictFind m k = some v := by
  induction m with
  | nil => cases h
  | cons hd rest ih =>
    obtain ⟨a, v⟩ := hd
    rw [List.map_cons] at h
    by_cases hak : a = k
    · exact ⟨v, by rw [dictFind, if_pos hak]⟩
    · rcases List.mem_cons.mp h with he | h'
      · exact absurd he.symm hak
      · obtain ⟨v', hv'⟩ := ih h'
        exact ⟨v', by rw [dictFind, if_neg hak, hv']⟩

/-- A found binding is a member of the mapping. -/
theorem dictFind_mem {m : Mapping} {k : String} {v : EntryVal}
    (h : dictFind m k = some v) : (k, v) ∈ m := by
  induction m with
  | nil => cases h
  | cons hd rest ih =>
    obtain ⟨a, b⟩ := hd
    rw [dictFind] at h
    by_cases hak : a = k
    · rw [if_pos hak] at h
      subst hak
      cases h
      exact List.mem_cons_self _ _
    · rw [if_neg hak] at h
      exact List.mem_cons_of_mem _ (ih h)

/-- The key loop of create_3d_html leaves the mapping untouched when
every visited key is present: every defaultdict read is a hit. -/
theorem htmlLoop_preserves (m : Mapping) (ks : List String)
    (hks : ∀ k ∈ ks, k ∈ m.map Prod.fst) :
    (htmlLoop m ks).2 = m := by
  induction ks with
  | nil => rfl
  | cons k rest ih =>
    have ih' := ih (fun x hx => hks x (List.mem_cons_of_mem _ hx))
    by_cases hk : k = "brain"
    · rw [htmlLoop, if_pos hk]
      exact ih'
    · obtain ⟨v, hv⟩ := dictFind_isSome_of_mem (hks k (List.mem_cons_self _ _))
      have hdd : ddGet m k = (v, m) := by rw [ddGet, hv]
      simp only [htmlLoop, if_neg hk, hdd]
      cases hu : unpack4 v with
      | error e => rfl
      | ok ent =>
        cases hloop : htmlLoop m rest with
        | mk res m2 =>
          rw [hloop] at ih'
          cases res with
          | ok layers => exact ih'
          | error e => exact ih'

/-- Claim C7: when the mapping has a "brain" key, both exporters
leave it exactly as given — every defaultdict read in the web
exporter is a hit, and the scene-graph exporter only iterates the
items. -/
theorem exporters_preserve_mapping (filename : String) (m : Mapping)
    (h : "brain" ∈ m.map Prod.fst) :
    (create_3d_html m).2 = m ∧
    (create_usdc_with_materials filename m).2 = m := by
  refine ⟨?_, rfl⟩
  obtain ⟨v, hv⟩ := dictFind_isSome_of_mem h
  have hdd : ddGet m "brain" = (v, m) := by rw [ddGet, hv]
  simp only [create_3d_html, hdd]
  cases hu : unpack4 v with
  | error e => rfl
  | ok be =>
    have hpre := htmlLoop_preserves m (m.map Prod.fst) (fun x hx => hx)
    cases hloop : htmlLoop m (m.map Prod.fst) with
    | mk res m2 =>
      rw [hloop] at hpre
      cases res with
      | ok layers => exact hpre
      | error e => exact hpre

/-- Witness for exporters_preserve_mapping at a concrete two-entry
mapping. -/
theorem exporters_preserve_mapping_witness :
    "brain" ∈ ([("brain", EntryVal.tuple sampleBrain),
                ("Edema", EntryVal.tuple sampleEntry)].map Prod.fst) ∧
    (create_3d_html [("brain", EntryVal.tuple sampleBrain),
                     ("Edema", EntryVal.tuple sampleEntry)]).2 =
      [("brain", EntryVal.tuple sampleBrain),
       ("Edema", EntryVal.tuple sampleEntry)] ∧
    (create_usdc_with_materials "brain_with_tumor.usdc"
      [("brain", EntryVal.tuple sampleBrain),
       ("Edema", EntryVal.tuple sampleEntry)]).2 =
      [("brain", EntryVal.tuple sampleBrain),
       ("Edema", EntryVal.tuple sampleEntry)] :=
  ⟨by decide, exporters_preserve_mapping "brain_with_tumor.usdc" _ (by decide)⟩

/-- The key loop of create_3d_html, run over keys whose values are
all stored tuples, emits one layer per non-"brain" key in order and
leaves the mapping untouched. -/
theorem htmlLoop_ok (m : Mapping) (ks : List String)
    (hks : ∀ k ∈ ks, ∃ e, dictFind m k = some (EntryVal.tuple e)) :
    htmlLoop m ks = (Except.ok ((ks.filter (fun k => k ≠ "brain")).map
      (fun k => mesh3dOf k (entryOfD ((dictFind m k).getD EntryVal.emptyList)))), m) := by
  induction ks with
  | nil => rfl
  | cons k rest ih =>
    have ih' := ih (fun x hx => hks x (List.mem_cons_of_mem _ hx))
    by_cases hk : k = "brain"
    · rw [htmlLoop, if_pos hk, ih',
        List.filter_cons_of_neg (by simp [hk])]
    · obtain ⟨e, he⟩ := hks k (List.mem_cons_self _ _)
      have hdd : ddGet m k = (EntryVal.tuple e, m) := by rw [ddGet, he]
      simp only [htmlLoop, if_neg hk, hdd, unpack4, ih']
      rw [List.filter_cons_of_pos (by simp [hk]), List.map_cons, he]
      rfl

/-- Rewriting the per-key loop output as a filter over the mapping's
entries: with unique keys, the layers for the non-"brain" keys are
the layers of the non-"brain" entries, in mapping order. -/
theorem keys_filter_map_eq (m : Mapping) (hnd : (m.map Prod.fst).Nodup) :
    ((m.map Prod.fst).filter (fun k => k ≠ "brain")).map
      (fun k => mesh3dOf k (entryOfD ((dictFind m k).getD EntryVal.emptyList))) =
    (m.filter (fun p => p.1 ≠ "brain")).map
      (fun p => mesh3dOf p.1 (entryOfD p.2)) := by
  induction m with
  | nil => rfl
  | cons hd rest ih =>
    obtain ⟨a, v⟩ := hd
    rw [List.map_cons, List.nodup_cons] at hnd
    have hagree : ∀ k ∈ (rest.map Prod.fst).filter (fun k => k ≠ "brain"),
        mesh3dOf k (entryOfD ((dictFind ((a, v) :: rest) k).getD EntryVal.emptyList)) =
        mesh3dOf k (entryOfD ((dictFind rest k).getD EntryVal.emptyList)) := by
      intro k hk
      have hkmem : k ∈ rest.map Prod.fst := List.mem_of_mem_filter hk
      have hka : ¬ a = k := fun hh => hnd.1 (hh ▸ hkmem)
      rw [dictFind, if_neg hka]
    rw [List.map_cons]
    by_cases hb : a = "brain"
    · rw [List.filter_cons_of_neg (by simp [hb]),
        List.filter_cons_of_neg (show ¬ _ by simp [hb]),
        List.map_congr_left hagree, ih hnd.2]
    · rw [List.filter_cons_of_pos (by simp [hb]),
        List.filter_cons_of_pos (show _ = true by simp [hb]),
        List.map_cons, List.map_cons]
      congr 1
      · rw [dictFind, if_pos rfl]
        rfl
      · rw [List.map_congr_left hagree, ih hnd.2]

/-- Claim C4: on a well-formed mapping with unique keys that binds
"brain" to an entry, create_3d_html emits the "brain" layer first
and then exactly one layer per remaining entry, carrying that
entry's data, whatever position "brain" occupies. -/
theorem create_3d_html_brain_first (m : Mapping) (be : Entry)
    (hb : dictFind m "brain" = some (EntryVal.tuple be))
    (hwf : wellFormed m) (hnd : (m.map Prod.fst).Nodup) :
    (create_3d_html m).1 = Except.ok (mesh3dOf "brain" be ::
      (m.filter (fun p => p.1 ≠ "brain")).map
        (fun p => mesh3dOf p.1 (entryOfD p.2))) := by
  have hdd : ddGet m "brain" = (EntryVal.tuple be, m) := by rw [ddGet, hb]
  have hks : ∀ k ∈ m.map Prod.fst, ∃ e, dictFind m k = some (EntryVal.tuple e) := by
    intro k hk
    obtain ⟨v, hv⟩ := dictFind_isSome_of_mem hk
    obtain ⟨e, hev⟩ := hwf (k, v) (dictFind_mem hv)
    simp only at hev
    exact ⟨e, by rw [hv, hev]⟩
  simp only [create_3d_html, hdd, unpack4]
  rw [htmlLoop_ok m (m.map Prod.fst) hks, keys_filter_map_eq m hnd]

/-- Witness for create_3d_html_brain_first: "brain" is the second
entry of the mapping, yet its layer comes first. -/
theorem create_3d_html_brain_first_witness :
    dictFind [("Necrotic", EntryVal.tuple sampleEntry2),
              ("brain", EntryVal.tuple sampleBrain)] "brain" =
      some (EntryVal.tuple sampleBrain) ∧
    wellFormed [("Necrotic", EntryVal.tuple sampleEntry2),
                ("brain", EntryVal.tuple sampleBrain)] ∧
    (create_3d_html [("Necrotic", EntryVal.tuple sampleEntry2),
                     ("brain", EntryVal.tuple sampleBrain)]).1 =
      Except.ok [mesh3dOf "brain" sampleBrain,
                 mesh3dOf "Necrotic" sampleEntry2] :=
  ⟨rfl, by decide,
   create_3d_html_brain_first _ sampleBrain rfl (by decide) (by decide)⟩

instance (s : Surface) : Decidable (validSurface s) := by
  unfold validSurface; infer_instance

/-- Assigning a fresh key to the mapping appends it at the end. -/
theorem dictSet_append {m : Mapping} {k : String} (v : EntryVal)
    (h : k ∉ m.map Prod.fst) : dictSet m k v = m ++ [(k, v)] := by
  induction m with
  | nil => rfl
  | cons hd rest ih =>
    obtain ⟨a, b⟩ := hd
    rw [List.map_cons] at h
    have hak : ¬ a = k := fun hh => h (List.mem_cons.mpr (Or.inl hh.symm))
    have hk' : k ∉ rest.map Prod.fst := fun hh => h (List.mem_cons_of_mem _ hh)
    rw [dictSet, if_neg hak, ih hk', List.cons_append]

/-- A member of the mapping after an assignment was already a member
or is the assigned binding. -/
theorem mem_dictSet {m : Mapping} {k : String} {v : EntryVal}
    {p : String × EntryVal}
    (h : p ∈ dictSet m k v) : p ∈ m ∨ p = (k, v) := by
  induction m with
  | nil =>
    rw [dictSet] at h
    exact Or.inr (List.mem_singleton.mp h)
  | cons hd rest ih =>
    obtain ⟨a, b⟩ := hd
    rw [dictSet] at h
    by_cases hak : a = k
    · rw [if_pos hak] at h
      rcases List.mem_cons.mp h with rfl | h'
      · exact Or.inr rfl
      · exact Or.inl (List.mem_cons_of_mem _ h')
    · rw [if_neg hak] at h
      rcases List.mem_cons.mp h with rfl | h'
      · exact Or.inl (List.mem_cons_self _ _)
      · rcases ih h' with h'' | h''
        · exact Or.inl (List.mem_cons_of_mem _ h'')
        · exact Or.inr h''

/-- If the extraction call only returns surfaces satisfying the
index-bounds invariant, every entry the per-label loop stores
satisfies it. -/
theorem tumorLoop_valid (extract : List ℕ → Except PyError Surface)
    (seg_data : List ℚ) (labels : List (ℕ × String × String × ℚ)) (m : Mapping)
    (hex : ∀ mask s, extract mask = Except.ok s → validSurface s)
    (h : tumorLoop extract seg_data labels = Except.ok m) : validMapping m := by
  induction labels generalizing m with
  | nil =>
    cases h
    intro p hp
    cases hp
  | cons lab rest ih =>
    obtain ⟨label, nm, color, op⟩ := lab
    simp only [tumorLoop] at h
    split at h
    · exact ih m h
    · split at h
      · cases h
      · rename_i vf hvf
        split at h
        · cases h
        · rename_i m' hm'
          cases h
          intro p hp
          rcases List.mem_cons.mp hp with rfl | hp'
          · exact hex _ _ hvf
          · exact ih m' hm' p hp'

/-- Claim C3: when label 2's mask is empty and labels 1 and 3 have
non-empty masks (and their extractions succeed), the final mapping is
exactly the Edema, Enhancing and brain entries in that order — label
2 is silently skipped, no error is raised, the keys are exactly
"Edema", "Enhancing", "brain", and "Necrotic" is absent. -/
theorem empty_label_silently_skipped (seg_path : String)
    (nib_load_fdata : String → List ℚ)
    (extract : List ℕ → Except PyError Surface)
    (nib_load_mri : String → List (ℚ × ℚ × ℚ × ℚ))
    (threshold_otsu : List ℚ → ℚ)
    (extract_brain : List ℕ → Except PyError Surface)
    (s1 s3 sb : Surface)
    (h1 : maskSum (maskOf (nib_load_fdata seg_path) 1) ≠ 0)
    (h2 : maskSum (maskOf (nib_load_fdata seg_path) 2) = 0)
    (h3 : maskSum (maskOf (nib_load_fdata seg_path) 3) ≠ 0)
    (hx1 : extract (maskOf (nib_load_fdata seg_path) 1) = Except.ok s1)
    (hx3 : extract (maskOf (nib_load_fdata seg_path) 3) = Except.ok s3)
    (hxb : extract_brain (main_brain_mask nib_load_mri threshold_otsu) =
      Except.ok sb) :
    main_tumor_data seg_path nib_load_fdata extract nib_load_mri threshold_otsu
        extract_brain =
      Except.ok [("Edema", EntryVal.tuple ⟨s1.1, s1.2, "yellow", 3/10⟩),
                 ("Enhancing", EntryVal.tuple ⟨s3.1, s3.2, "lightblue", 3/10⟩),
                 ("brain", EntryVal.tuple ⟨sb.1, sb.2, "pink", 1/5⟩)] ∧
    ([("Edema", EntryVal.tuple ⟨s1.1, s1.2, "yellow", 3/10⟩),
      ("Enhancing", EntryVal.tuple ⟨s3.1, s3.2, "lightblue", 3/10⟩),
      ("brain", EntryVal.tuple ⟨sb.1, sb.2, "pink", 1/5⟩)].map Prod.fst) =
      ["Edema", "Enhancing", "brain"] ∧
    "Necrotic" ∉ ([("Edema", EntryVal.tuple ⟨s1.1, s1.2, "yellow", 3/10⟩),
      ("Enhancing", EntryVal.tuple ⟨s3.1, s3.2, "lightblue", 3/10⟩),
      ("brain", EntryVal.tuple ⟨sb.1, sb.2, "pink", 1/5⟩)].map Prod.fst) := by
  have htum : get_tumors seg_path nib_load_fdata extract seg_path =
      Except.ok [("Edema", EntryVal.tuple ⟨s1.1, s1.2, "yellow", 3/10⟩),
                 ("Enhancing", EntryVal.tuple ⟨s3.1, s3.2, "lightblue", 3/10⟩)] := by
    unfold get_tumors tumor_labels
    simp only [tumorLoop, if_neg h1, if_pos h2, if_neg h3, hx1, hx3]
  refine ⟨?_, rfl, ?_⟩
  · unfold main_tumor_data
    simp only [htum, hxb]
    have hnb : "brain" ∉
        ([("Edema", EntryVal.tuple ⟨s1.1, s1.2, "yellow", 3/10⟩),
          ("Enhancing", EntryVal.tuple ⟨s3.1, s3.2, "lightblue", 3/10⟩)].map
            Prod.fst) := by
      show "brain" ∉ ["Edema", "Enhancing"]
      decide
    rw [dictSet_append _ hnb]
    rfl
  · show "Necrotic" ∉ ["Edema", "Enhancing", "brain"]
    decide

/-- Witness for empty_label_silently_skipped on a concrete 2-voxel
segmentation holding labels 1 and 3 and no label 2. -/
theorem empty_label_silently_skipped_witness :
    maskSum (maskOf [1, 3] 1) ≠ 0 ∧
    maskSum (maskOf [1, 3] 2) = 0 ∧
    maskSum (maskOf [1, 3] 3) ≠ 0 ∧
    main_tumor_data "seg" (fun _ => [1, 3])
      (fun _ => Except.ok ([(0, 0, 0)], [(0, 0, 0)]))
      (fun _ => []) (fun _ => 0)
      (fun _ => Except.ok ([], [])) =
      Except.ok [("Edema", EntryVal.tuple ⟨[(0, 0, 0)], [(0, 0, 0)], "yellow", 3/10⟩),
                 ("Enhancing", EntryVal.tuple ⟨[(0, 0, 0)], [(0, 0, 0)], "lightblue", 3/10⟩),
                 ("brain", EntryVal.tuple ⟨[], [], "pink", 1/5⟩)] ∧
    "Necrotic" ∉
      ([("Edema", EntryVal.tuple ⟨[(0, 0, 0)], [(0, 0, 0)], "yellow", 3/10⟩),
        ("Enhancing", EntryVal.tuple ⟨[(0, 0, 0)], [(0, 0, 0)], "lightblue", 3/10⟩),
        ("brain", EntryVal.tuple ⟨[], [], "pink", 1/5⟩)].map Prod.fst) :=
  ⟨by decide, by decide, by decide,
   (empty_label_silently_skipped "seg" (fun _ => [1, 3])
     (fun _ => Except.ok ([(0, 0, 0)], [(0, 0, 0)]))
     (fun _ => []) (fun _ => 0) (fun _ => Except.ok ([], []))
     ([(0, 0, 0)], [(0, 0, 0)]) ([(0, 0, 0)], [(0, 0, 0)]) ([], [])
     (by decide) (by decide) (by decide) rfl rfl rfl).1,
   by decide⟩

/-- Claim C9: if every surface the extraction calls return satisfies
the index-bounds invariant (the marching-cubes contract), then every
entry of the final mapping does: each face triple's indices are valid
indices into that entry's vertex list. -/
theorem surface_entries_index_bounds (seg_path : String)
    (nib_load_fdata : String → List ℚ)
    (extract : List ℕ → Except PyError Surface)
    (nib_load_mri : String → List (ℚ × ℚ × ℚ × ℚ))
    (threshold_otsu : List ℚ → ℚ)
    (extract_brain : List ℕ → Except PyError Surface) (M : Mapping)
    (hex : ∀ mask s, extract mask = Except.ok s → validSurface s)
    (hexb : ∀ mask s, extract_brain mask = Except.ok s → validSurface s)
    (hM : main_tumor_data seg_path nib_load_fdata extract nib_load_mri
        threshold_otsu extract_brain = Except.ok M) :
    validMapping M := by
  unfold main_tumor_data at hM
  split at hM
  · cases hM
  · rename_i tumor_data htum
    split at hM
    · cases hM
    · rename_i vf hvf
      cases hM
      have htv : validMapping tumor_data := by
        unfold get_tumors at htum
        exact tumorLoop_valid _ _ _ _ hex htum
      intro p hp
      rcases mem_dictSet hp with hp' | rfl
      · exact htv p hp'
      · exact hexb _ _ hvf

/-- Witness for surface_entries_index_bounds at a concrete run. -/
theorem surface_entries_index_bounds_witness :
    validMapping
      [("Edema", EntryVal.tuple ⟨[(0, 0, 0)], [(0, 0, 0)], "yellow", 3/10⟩),
       ("Enhancing", EntryVal.tuple ⟨[(0, 0, 0)], [(0, 0, 0)], "lightblue", 3/10⟩),
       ("brain", EntryVal.tuple ⟨[(0, 0, 0), (1, 1, 1)], [(0, 1, 1)], "pink", 1/5⟩)] :=
  surface_entries_index_bounds "seg" (fun _ => [1, 3])
    (fun _ => Except.ok ([(0, 0, 0)], [(0, 0, 0)]))
    (fun _ => []) (fun _ => 0)
    (fun _ => Except.ok ([(0, 0, 0), (1, 1, 1)], [(0, 1, 1)])) _
    (fun mask s hs => by cases hs; decide)
    (fun mask s hs => by cases hs; decide)
    rfl

end MedAR
